import Mathlib

/-!
Shallow embedding of `src/admin/afsfree.py` (afs-tools): a tool reporting
free and used space on OpenAFS file servers.  Python integers are modelled
as `ℕ` (all quantities here are non-negative block counts), Python floats
as `ℚ`, Python `round(x, 1)` and `'{:.0f}'.format` as round-half-to-even
over `ℚ`, lists/dicts as Lean lists (Python dicts preserve insertion
order), and exceptions as `Except`.
-/

deriving instance DecidableEq for Except

namespace Afsfree

section

attribute [local semireducible] Rat.mul Rat.inv Rat.add Rat.sub

/-- `KiB = 1024`, as in the source. -/
def KiB : ℕ := 1024

/-- `MiB = KiB * 1024`. -/
def MiB : ℕ := KiB * 1024

/-- `GiB = MiB * 1024`. -/
def GiB : ℕ := MiB * 1024

/-- `TiB = GiB * 1024`. -/
def TiB : ℕ := GiB * 1024

/-- Round half to even to an integer: the rounding used by Python's
`round` builtin and `format` with `.0f`. -/
def rhe (q : ℚ) : ℤ :=
  if q - q.floor < 1/2 then q.floor
  else if (1:ℚ)/2 < q - q.floor then q.floor + 1
  else if q.floor % 2 = 0 then q.floor else q.floor + 1

/-- Python `round(x, 1)`: round to one decimal place, half to even. -/
def pyRound1 (q : ℚ) : ℚ := (rhe (q * 10) : ℚ) / 10

/-- `humanize(kbytes)` from the source: pick the unit by threshold
comparisons (`>= TiB → 'P'`, `>= GiB → 'T'`, `>= MiB → 'G'`,
`>= KiB → 'M'`, else `'K'`) and format the scaled value with
`'{:.0f}'`. -/
def humanize (kbytes : ℕ) : String :=
  if kbytes ≥ TiB then toString (rhe ((kbytes : ℚ) / (TiB : ℚ))) ++ "P"
  else if kbytes ≥ GiB then toString (rhe ((kbytes : ℚ) / (GiB : ℚ))) ++ "T"
  else if kbytes ≥ MiB then toString (rhe ((kbytes : ℚ) / (MiB : ℚ))) ++ "G"
  else if kbytes ≥ KiB then toString (rhe ((kbytes : ℚ) / (KiB : ℚ))) ++ "M"
  else toString (rhe (kbytes : ℚ)) ++ "K"

/-- The unit ladder as the spec words it: divisors paired with unit
letters, largest first. -/
def unitLadder : List (ℕ × String) := [(TiB, "P"), (GiB, "T"), (MiB, "G"), (KiB, "M")]

/-- Formulated from the spec's words, for comparison with `humanize`:
choose the largest unit on the ladder where the scaled value is at least
one (i.e. the first divisor `d` with `d ≤ kbytes`), defaulting to `K`,
and format the scaled value with zero decimal places. -/
def humanizeSpec (kbytes : ℕ) : String :=
  match unitLadder.find? (fun p => decide (p.1 ≤ kbytes)) with
  | some p => toString (rhe ((kbytes : ℚ) / (p.1 : ℚ))) ++ p.2
  | none => toString (rhe (kbytes : ℚ)) ++ "K"

/-- `calculate_used(free, total)` from the source:
`used = total - free` if `total > free` else `total`;
`usedp = round(used / total * 100.0, 1)` if `total > 0` else `100.0`;
then values below `0.1` snap to `0.0` and values above `100.0` clamp
to `100.0`. -/
def calculate_used (free total : ℕ) : ℕ × ℚ :=
  let used : ℕ := if total > free then total - free else total
  let usedp : ℚ := if total > 0 then pyRound1 ((used : ℚ) / (total : ℚ) * 100) else 100
  let usedp1 : ℚ := if usedp < 1/10 then 0 else usedp
  let usedp2 : ℚ := if usedp1 > 100 then 100 else usedp1
  (used, usedp2)

example : calculate_used 5 3 = (3, 100) := by decide
example : calculate_used 1 1 = (1, 100) := by decide
example : calculate_used 600 1000 = (400, 40) := by decide
example : humanize 0 = "0K" := by decide
example : humanize 1099511627776 = "1P" := by decide
example : humanizeSpec 1023 = "1023K" := by decide

/-- A value bound to a keyword flag of the `vos` wrapper: Python `None`,
`True`, or any other (string) value. -/
inductive FlagValue where
  | none : FlagValue
  | true : FlagValue
  | str : String → FlagValue
deriving DecidableEq

/-- The command-line argument list built by `vos(command, **kwargs)`:
start from `['vos', command]`; for each keyword in order, `None` adds
nothing, `True` adds `-name`, and any other value adds `-name value`. -/
def vosArgs (command : String) (kwargs : List (String × FlagValue)) : List String :=
  kwargs.foldl
    (fun args p =>
      match p.2 with
      | FlagValue.none => args
      | FlagValue.true => args ++ ["-" ++ p.1]
      | FlagValue.str v => args ++ ["-" ++ p.1, v])
    ["vos", command]

/-- The tokens one `(name, value)` pair contributes to the argument
list, per the spec's three cases. -/
def flagTokens (p : String × FlagValue) : List String :=
  match p.2 with
  | FlagValue.none => []
  | FlagValue.true => ["-" ++ p.1]
  | FlagValue.str v => ["-" ++ p.1, v]

/-- Python `line.startswith(p)`, over the character list (the built-in
`String.startsWith` does not reduce well under kernel evaluation). -/
def pyStartsWith (s p : String) : Bool := p.data.isPrefixOf s.data

/-- Python `str.strip()`: remove leading and trailing whitespace. -/
def pyStrip (s : String) : String :=
  ⟨((s.data.dropWhile Char.isWhitespace).reverse.dropWhile Char.isWhitespace).reverse⟩

/-- The payload of the `ValueError` raised by `lookup_servers` on
unexpected `vos listaddrs` output: the (unformatted) message template and
the two arguments passed with it, the 0-based line index from `enumerate`
and the offending line itself. -/
structure ParseErr where
  template : String
  lineNumber : ℕ
  content : String
deriving DecidableEq

/-- The message template passed to `ValueError` in `lookup_servers`. -/
def unexpectedLine : String := "Unexpected vos listaddrs output on line {1}: {2}"

/-- `uuid not in file_servers` / dict key insertion: if the key is
already present the dict entry is untouched, otherwise a new empty
group is appended (Python dicts keep insertion order). -/
def ensureKey (gs : List (String × List String)) (u : String) : List (String × List String) :=
  if u ∈ gs.map Prod.fst then gs else gs ++ [(u, [])]

/-- `file_servers[uuid].append(line)`: append an address to the group of
key `u`.  (Reachable states always have `u` present, put there by the
`UUID:` branch; an absent key leaves the list unchanged.) -/
def addAddr (gs : List (String × List String)) (u : String) (a : String) : List (String × List String) :=
  gs.map (fun p => if p.1 = u then (p.1, p.2 ++ [a]) else p)

/-- Python truthiness of the `uuid` variable (`if not uuid`): `None` and
the empty string are falsy. -/
def uuidFalsy : Option String → Bool
  | Option.none => Bool.true
  | Option.some s => s == ""

/-- The `for i, line in enumerate(listaddrs)` loop of `lookup_servers`:
a blank line resets `uuid`; a line starting with `UUID:` strips the
marker, trims, and opens (or re-opens) that group; any other line is an
address of the current group, or a `ValueError` when `uuid` is falsy. -/
def parseListaddrs : ℕ → Option String → List (String × List String) → List String →
    Except ParseErr (List (String × List String))
  | _, _, gs, [] => Except.ok gs
  | i, uuid, gs, line :: rest =>
    if line = "" then
      parseListaddrs (i + 1) Option.none gs rest
    else if pyStartsWith line "UUID:" then
      let u := pyStrip ⟨line.data.drop 5⟩
      parseListaddrs (i + 1) (Option.some u) (ensureKey gs u) rest
    else if uuidFalsy uuid then
      Except.error ⟨unexpectedLine, i, line⟩
    else
      parseListaddrs (i + 1) uuid (addAddr gs (uuid.getD "") line) rest

/-- `lookup_hostname` truthiness-guarded scan (`for address in addresses:
... if hostname: add; break`): the first address whose resolution yields
a truthy (non-`None`, non-empty) hostname. -/
def firstResolved (resolve : String → Option String) : List String → Option String
  | [] => Option.none
  | a :: rest =>
    match resolve a with
    | Option.some h => if h = "" then firstResolved resolve rest else Option.some h
    | Option.none => firstResolved resolve rest

/-- The second loop of `lookup_servers`: collect, over the groups in
order, the first resolving hostname of each group into a set (modelled
as an insertion-ordered duplicate-free list). -/
def resolveServers (resolve : String → Option String) (gs : List (String × List String)) :
    List String :=
  gs.foldl
    (fun servers p =>
      match firstResolved resolve p.2 with
      | Option.some h => if h ∈ servers then servers else servers ++ [h]
      | Option.none => servers)
    []

/-- `lookup_servers`, taking the `vos listaddrs` output lines and the
hostname resolver as explicit inputs (both come from outside the
program). -/
def lookup_servers (resolve : String → Option String) (listaddrs : List String) :
    Except ParseErr (List String) :=
  (parseListaddrs 0 Option.none [] listaddrs).map (resolveServers resolve)

example : parseListaddrs 0 Option.none [] ["UUID: abc", "10.0.0.1", "10.0.0.2", "", "UUID: def", "10.0.0.3"]
    = Except.ok [("abc", ["10.0.0.1", "10.0.0.2"]), ("def", ["10.0.0.3"])] := by decide

example : lookup_servers (fun _ => Option.none) ["UUID: abc", "10.0.0.1"] = Except.ok [] := by decide

example : lookup_servers (fun a => Option.some (a ++ ".example.com")) ["UUID: abc", "10.0.0.1"]
    = Except.ok ["10.0.0.1.example.com"] := by decide

example : lookup_servers (fun _ => Option.none) ["", "10.0.0.1"]
    = Except.error ⟨unexpectedLine, 1, "10.0.0.1"⟩ := by decide

/-- The per-partition record built by `get_partinfo`:
`dict(size=size, used=used, free=free, usedp=usedp)`. -/
structure PartInfo where
  size : ℕ
  used : ℕ
  free : ℕ
  usedp : ℚ
deriving DecidableEq

/-- One flattened row `(host, part, size, used, free, usedp)`. -/
abbrev Row := String × String × ℕ × ℕ × ℕ × ℚ

/-- `flatten(results)`: one tuple per `(host, part)` pair, in the nested
iteration order of the host and partition mappings. -/
def flatten (results : List (String × List (String × PartInfo))) : List Row :=
  (results.map (fun hp =>
    hp.2.map (fun pr => (hp.1, pr.1, pr.2.size, pr.2.used, pr.2.free, pr.2.usedp)))).flatten

/-- The sort key Python's `sorted` compares: the whole row tuple,
lexicographically. -/
def rowKey (r : Row) : String ×ₗ (String ×ₗ (ℕ ×ₗ (ℕ ×ₗ (ℕ ×ₗ ℚ)))) :=
  toLex (r.1, toLex (r.2.1, toLex (r.2.2.1, toLex (r.2.2.2.1, toLex (r.2.2.2.2.1, r.2.2.2.2.2)))))

/-- Row comparison used by `sorted(flatten(results))`: lexicographic on
the whole tuple. -/
def rowLe (a b : Row) : Prop := rowKey a ≤ rowKey b

instance : DecidableRel rowLe := fun a b => inferInstanceAs (Decidable (rowKey a ≤ rowKey b))

/-- `sorted(...)` in `print_text` and `print_plain`: a stable sort by
`rowLe` (every stable sort computes the same list, so insertion sort
models Python's timsort). -/
def sortRows (rows : List Row) : List Row := List.insertionSort rowLe rows

/-- The row formatting of `print_text`: host and part unchanged, sizes
humanized, percent rendered with `'{:.0f}%'`. -/
def fmtRow (r : Row) : String × String × String × String × String × String :=
  (r.1, r.2.1, humanize r.2.2.1, humanize r.2.2.2.1, humanize r.2.2.2.2.1,
    toString (rhe r.2.2.2.2.2) ++ "%")

/-- The table built by `print_text` before column padding: the header
row followed by the sorted, formatted data rows.  (`make_template` only
pads each column to its maximal width; it neither reorders nor drops
rows, so row order questions are settled here.) -/
def textTable (results : List (String × List (String × PartInfo))) :
    List (String × String × String × String × String × String) :=
  ("host", "part", "size", "used", "free", "used%") :: (sortRows (flatten results)).map fmtRow

/-- After the snap-to-zero and clamp steps, the percentage is either
exactly `0` or lies in `[0.1, 100]`. -/
theorem calculate_used_snd_mem (free total : ℕ) :
    (calculate_used free total).2 = 0 ∨
      (1/10 ≤ (calculate_used free total).2 ∧ (calculate_used free total).2 ≤ 100) := by
  simp only [calculate_used]
  split_ifs <;> first | (exact Or.inr ⟨by linarith, by linarith⟩) | norm_num

/-- The returned percentage is non-negative. -/
theorem calculate_used_snd_nonneg (free total : ℕ) : 0 ≤ (calculate_used free total).2 := by
  rcases calculate_used_snd_mem free total with h | ⟨h1, _⟩
  · rw [h]
  · linarith

/-- The returned percentage never exceeds `100`. -/
theorem calculate_used_snd_le_hundred (free total : ℕ) : (calculate_used free total).2 ≤ 100 := by
  rcases calculate_used_snd_mem free total with h | ⟨_, h2⟩
  · rw [h]; norm_num
  · exact h2

/-- C1 (amended): for `size > free ≥ 0`, `calculate_used(free, size)`
returns `used = size - free`, and the returned `usedPercent` satisfies
`0 ≤ usedPercent ≤ 100`.  (At the boundary `size = free` the source
takes the `else` branch and returns `used = size`, so the claim's
original hypothesis `size ≥ free` fails there.) -/
theorem calculate_used_strict_sub (free size : ℕ) (h : free < size) :
    (calculate_used free size).1 = size - free ∧
      0 ≤ (calculate_used free size).2 ∧ (calculate_used free size).2 ≤ 100 := by
  refine ⟨?_, calculate_used_snd_nonneg free size, calculate_used_snd_le_hundred free size⟩
  simp only [calculate_used]
  rw [if_pos h]

/-- C1 witness: the amended theorem applied at `(free, size) = (600, 1000)`. -/
theorem calculate_used_strict_sub_witness :
    (600 : ℕ) < 1000 ∧
      ((calculate_used 600 1000).1 = 1000 - 600 ∧
        0 ≤ (calculate_used 600 1000).2 ∧ (calculate_used 600 1000).2 ≤ 100) :=
  ⟨by decide, calculate_used_strict_sub 600 1000 (by decide)⟩

/-- C1 counterexample: at `free = size = 1` the claim predicts
`used = size - free = 0`, but `total > free` is false so the code
returns `used = total = 1`. -/
theorem calculate_used_boundary_counterexample :
    (calculate_used 1 1).1 = 1 ∧ (calculate_used 1 1).1 ≠ 1 - 1 := by decide

/-- C5: for `free > size ≥ 0` the code returns `used = size`, and for
`size = 0` it returns `usedPercent = 100.0` whatever `free` is. -/
theorem calculate_used_overfree_zero_total :
    (∀ free size : ℕ, size < free → (calculate_used free size).1 = size) ∧
      (∀ free : ℕ, (calculate_used free 0).2 = 100) := by
  constructor
  · intro free size h
    simp only [calculate_used]
    rw [if_neg (by omega)]
  · intro free
    simp only [calculate_used]
    norm_num

/-- C5 witness: the theorem applied at `(free, size) = (7, 3)` and at
`(free, size) = (9, 0)`. -/
theorem calculate_used_overfree_zero_total_witness :
    (calculate_used 7 3).1 = 3 ∧ (calculate_used 9 0).2 = 100 :=
  ⟨calculate_used_overfree_zero_total.1 7 3 (by decide),
    calculate_used_overfree_zero_total.2 9⟩

/-- C6: the returned `usedPercent` is never strictly between `0` and
`0.1` (it is `0` or at least `1/10`) and never exceeds `100`. -/
theorem calculate_used_percent_clamped (free total : ℕ) :
    ((calculate_used free total).2 = 0 ∨ 1/10 ≤ (calculate_used free total).2) ∧
      (calculate_used free total).2 ≤ 100 := by
  rcases calculate_used_snd_mem free total with h | ⟨h1, h2⟩
  · exact ⟨Or.inl h, by rw [h]; norm_num⟩
  · exact ⟨Or.inr h1, h2⟩

/-- C9: the used value satisfies `0 ≤ used ≤ size`, so when `size > 0`
the ratio `used / size` never exceeds `1` before any clamping. -/
theorem calculate_used_used_le_total (free size : ℕ) :
    (calculate_used free size).1 ≤ size ∧
      (0 < size → ((calculate_used free size).1 : ℚ) / (size : ℚ) ≤ 1) := by
  have hle : (calculate_used free size).1 ≤ size := by
    simp only [calculate_used]
    split_ifs with h
    · omega
    · exact le_refl size
  refine ⟨hle, fun hpos => ?_⟩
  rw [div_le_one (by exact_mod_cast hpos)]
  exact_mod_cast hle

/-- C9 witness: the theorem applied at `(free, size) = (300, 500)`. -/
theorem calculate_used_used_le_total_witness :
    (calculate_used 300 500).1 ≤ 500 ∧
      ((calculate_used 300 500).1 : ℚ) / ((500 : ℕ) : ℚ) ≤ 1 :=
  ⟨(calculate_used_used_le_total 300 500).1,
    (calculate_used_used_le_total 300 500).2 (by decide)⟩

/-- C4: `humanize` maps the listed values as the spec says, keeps values
just below a threshold in the lower unit, and agrees everywhere with the
spec-worded ladder choice (largest unit whose scaled value is at least
one, zero decimal places). -/
theorem humanize_unit_ladder :
    humanize 0 = "0K" ∧ humanize 1024 = "1M" ∧ humanize 1048576 = "1G" ∧
      humanize 1073741824 = "1T" ∧ humanize 1099511627776 = "1P" ∧
      humanize 1023 = "1023K" ∧ ∀ k : ℕ, humanize k = humanizeSpec k := by
  refine ⟨by decide, by decide, by decide, by decide, by decide, by decide, ?_⟩
  intro k
  unfold humanize humanizeSpec unitLadder
  by_cases hT : TiB ≤ k
  · simp [List.find?, hT, ge_iff_le]
  · by_cases hG : GiB ≤ k
    · simp [List.find?, hT, hG, ge_iff_le]
    · by_cases hM : MiB ≤ k
      · simp [List.find?, hT, hG, hM, ge_iff_le]
      · by_cases hK : KiB ≤ k
        · simp [List.find?, hT, hG, hM, hK, ge_iff_le]
        · simp [List.find?, hT, hG, hM, hK, ge_iff_le]

/-- Folding the flag-building step over any starting argument list
appends exactly the per-pair token lists, in order. -/
theorem vosArgs_foldl_append (kwargs : List (String × FlagValue)) :
    ∀ init : List String,
      kwargs.foldl
        (fun args p =>
          match p.2 with
          | FlagValue.none => args
          | FlagValue.true => args ++ ["-" ++ p.1]
          | FlagValue.str v => args ++ ["-" ++ p.1, v])
        init
      = init ++ (kwargs.map flagTokens).flatten := by
  induction kwargs with
  | nil => intro init; simp
  | cons p rest ih =>
    intro init
    cases hp : p.2 <;>
      simp [List.foldl_cons, flagTokens, hp, ih, List.append_assoc]

/-- C7: the built command line is `['vos', command]` followed, for each
`(name, value)` pair in order, by nothing for `None`, by `-name` alone
for `True`, and by `-name value` otherwise. -/
theorem vosArgs_flag_rendering (command : String) (kwargs : List (String × FlagValue)) :
    vosArgs command kwargs = ["vos", command] ++ (kwargs.map flagTokens).flatten := by
  unfold vosArgs
  exact vosArgs_foldl_append kwargs ["vos", command]

/-- A run of blank lines keeps `uuid = None` and the group dict
untouched, so the first non-blank non-marker line raises the
`ValueError` carrying its 0-based index and content. -/
theorem parse_blank_then_error (pre : List String) :
    (∀ l ∈ pre, l = "") →
    ∀ (i : ℕ) (gs : List (String × List String)) (line : String) (rest : List String),
      line ≠ "" → pyStartsWith line "UUID:" = false →
      parseListaddrs i Option.none gs (pre ++ line :: rest)
        = Except.error ⟨unexpectedLine, i + pre.length, line⟩ := by
  induction pre with
  | nil =>
    intro _ i gs line rest hne hm
    simp only [List.nil_append, parseListaddrs]
    rw [if_neg hne, if_neg (by simp [hm]), if_pos (by rfl)]
    simp
  | cons b pre' ih =>
    intro hpre i gs line rest hne hm
    have hb : b = "" := hpre b (List.mem_cons_self b pre')
    subst hb
    simp only [List.cons_append, parseListaddrs, List.append_eq, if_true]
    rw [ih (fun l hl => hpre l (List.mem_cons_of_mem _ hl)) (i + 1) gs line rest hne hm]
    have harith : i + 1 + pre'.length = i + ("" :: pre').length := by
      simp only [List.length_cons]
      omega
    rw [harith]

/-- C3: a non-blank line not starting with `UUID:` that only blank lines
precede makes `lookup_servers` fail with the parse error carrying that
line's 0-based number and its content. -/
theorem lookup_servers_error_before_marker (resolve : String → Option String)
    (pre : List String) (line : String) (rest : List String)
    (hpre : ∀ l ∈ pre, l = "") (hne : line ≠ "")
    (hm : pyStartsWith line "UUID:" = false) :
    lookup_servers resolve (pre ++ line :: rest)
      = Except.error ⟨unexpectedLine, pre.length, line⟩ := by
  unfold lookup_servers
  rw [parse_blank_then_error pre hpre 0 [] line rest hne hm]
  simp [Except.map]

/-- C3 witness: the theorem applied to two blank lines followed by an
address-looking line. -/
theorem lookup_servers_error_before_marker_witness :
    (∀ l ∈ (["", ""] : List String), l = "") ∧ "10.0.0.1" ≠ "" ∧
      pyStartsWith "10.0.0.1" "UUID:" = false ∧
      lookup_servers (fun _ => Option.none) (["", ""] ++ "10.0.0.1" :: ["UUID: a"])
        = Except.error ⟨unexpectedLine, (["", ""] : List String).length, "10.0.0.1"⟩ :=
  ⟨by decide, by decide, by decide,
    lookup_servers_error_before_marker (fun _ => Option.none) ["", ""] "10.0.0.1" ["UUID: a"]
      (by decide) (by decide) (by decide)⟩

/-- Appending an address under a key rewrites values only: the key list
is unchanged. -/
theorem addAddr_keys (gs : List (String × List String)) (u a : String) :
    (addAddr gs u a).map Prod.fst = gs.map Prod.fst := by
  unfold addAddr
  rw [List.map_map]
  refine List.map_congr_left ?_
  intro p _
  simp only [Function.comp]
  split_ifs <;> rfl

/-- `ensureKey` preserves key-list nodup: it appends a key only when it
is absent. -/
theorem ensureKey_keys_nodup (gs : List (String × List String)) (u : String)
    (h : (gs.map Prod.fst).Nodup) : ((ensureKey gs u).map Prod.fst).Nodup := by
  unfold ensureKey
  split_ifs with hmem
  · exact h
  · rw [List.map_append]
    simp only [List.map_cons, List.map_nil]
    rw [List.nodup_append]
    refine ⟨h, List.nodup_singleton u, ?_⟩
    intro x hx hxu
    exact hmem ((List.mem_singleton.mp hxu) ▸ hx)

/-- Every group list produced by the listaddrs parse has pairwise
distinct keys. -/
theorem parse_keys_nodup :
    ∀ (lines : List String) (i : ℕ) (uuid : Option String)
      (gs res : List (String × List String)),
      (gs.map Prod.fst).Nodup → parseListaddrs i uuid gs lines = Except.ok res →
      (res.map Prod.fst).Nodup := by
  intro lines
  induction lines with
  | nil =>
    intro i uuid gs res h heq
    simp only [parseListaddrs] at heq
    cases heq
    exact h
  | cons line rest ih =>
    intro i uuid gs res h heq
    simp only [parseListaddrs] at heq
    by_cases hb : line = ""
    · rw [if_pos hb] at heq
      exact ih _ _ _ _ h heq
    · rw [if_neg hb] at heq
      by_cases hm : pyStartsWith line "UUID:" = true
      · rw [if_pos hm] at heq
        exact ih _ _ _ _ (ensureKey_keys_nodup _ _ h) heq
      · rw [if_neg hm] at heq
        by_cases hf : uuidFalsy uuid = true
        · rw [if_pos hf] at heq
          cases heq
        · rw [if_neg hf] at heq
          refine ih _ _ _ _ ?_ heq
          rw [addAddr_keys]
          exact h

/-- C10: a repeated `UUID:` marker with the same identifier accumulates
the following addresses into the one existing group: concretely on a
listing that repeats `UUID: x`, and in general because a present key is
left untouched (`ensureKey`) and parse results never hold duplicate
keys. -/
theorem parseListaddrs_repeated_marker_accumulates :
    parseListaddrs 0 Option.none [] ["UUID: x", "addr1", "", "UUID: x", "addr2"]
        = Except.ok [("x", ["addr1", "addr2"])] ∧
      (∀ (gs : List (String × List String)) (u : String),
        u ∈ gs.map Prod.fst → ensureKey gs u = gs) ∧
      (∀ (lines : List String) (res : List (String × List String)),
        parseListaddrs 0 Option.none [] lines = Except.ok res →
        (res.map Prod.fst).Nodup) := by
  refine ⟨by decide, ?_, ?_⟩
  · intro gs u hmem
    unfold ensureKey
    rw [if_pos hmem]
  · intro lines res heq
    exact parse_keys_nodup lines 0 Option.none [] res (by simp) heq

/-- C10 witness: the theorem's three parts at concrete inputs. -/
theorem parseListaddrs_repeated_marker_accumulates_witness :
    parseListaddrs 0 Option.none [] ["UUID: x", "addr1", "", "UUID: x", "addr2"]
        = Except.ok [("x", ["addr1", "addr2"])] ∧
      ensureKey [("x", ["addr1"])] "x" = [("x", ["addr1"])] ∧
      (([("x", ["addr1"])] : List (String × List String)).map Prod.fst).Nodup :=
  ⟨parseListaddrs_repeated_marker_accumulates.1,
    parseListaddrs_repeated_marker_accumulates.2.1 [("x", ["addr1"])] "x" (by decide),
    parseListaddrs_repeated_marker_accumulates.2.2 ["UUID: x", "addr1"] [("x", ["addr1"])]
      (by decide)⟩

/-- The server-collection fold only ever grows the accumulator:
membership is preserved. -/
theorem mem_resolveServers_foldl (resolve : String → Option String) :
    ∀ (gs : List (String × List String)) (acc : List String) (x : String),
      x ∈ acc →
      x ∈ gs.foldl
        (fun servers p =>
          match firstResolved resolve p.2 with
          | Option.some h => if h ∈ servers then servers else servers ++ [h]
          | Option.none => servers)
        acc := by
  intro gs
  induction gs with
  | nil => intro acc x hx; simpa using hx
  | cons p rest ih =>
    intro acc x hx
    rw [List.foldl_cons]
    apply ih
    cases hf : firstResolved resolve p.2 <;> simp only [hf]
    · exact hx
    · split_ifs
      · exact hx
      · exact List.mem_append_left _ hx

/-- A group with a resolving address puts that hostname into the fold
result, whatever the accumulator. -/
theorem mem_resolveServers_of_group (resolve : String → Option String) :
    ∀ (gs : List (String × List String)) (acc : List String)
      (p : String × List String) (h : String),
      p ∈ gs → firstResolved resolve p.2 = Option.some h →
      h ∈ gs.foldl
        (fun servers p =>
          match firstResolved resolve p.2 with
          | Option.some h => if h ∈ servers then servers else servers ++ [h]
          | Option.none => servers)
        acc := by
  intro gs
  induction gs with
  | nil =>
    intro acc p h hp _
    exact absurd hp (List.not_mem_nil p)
  | cons q rest ih =>
    intro acc p h hp hf
    rw [List.foldl_cons]
    rcases List.mem_cons.mp hp with rfl | hp'
    · apply mem_resolveServers_foldl
      simp only [hf]
      split_ifs with hin
      · exact hin
      · exact List.mem_append_right _ (List.mem_singleton.mpr rfl)
    · exact ih _ p h hp' hf

/-- Groups whose scan yields nothing leave the fold state unchanged, so
they can be filtered away without changing the result. -/
theorem resolveServers_foldl_filter (resolve : String → Option String) :
    ∀ (gs : List (String × List String)) (acc : List String),
      gs.foldl
        (fun servers p =>
          match firstResolved resolve p.2 with
          | Option.some h => if h ∈ servers then servers else servers ++ [h]
          | Option.none => servers)
        acc
      = (gs.filter (fun p => (firstResolved resolve p.2).isSome)).foldl
          (fun servers p =>
            match firstResolved resolve p.2 with
            | Option.some h => if h ∈ servers then servers else servers ++ [h]
            | Option.none => servers)
          acc := by
  intro gs
  induction gs with
  | nil => intro acc; rfl
  | cons p rest ih =>
    intro acc
    rw [List.foldl_cons]
    cases hf : firstResolved resolve p.2
    · rw [List.filter_cons_of_neg (by simp [hf])]
      simp only [hf]
      exact ih acc
    · rw [List.filter_cons_of_pos (by simp [hf])]
      rw [List.foldl_cons]
      simp only [hf]
      exact ih _

/-- C2 counterexample: a single group whose only address never
resolves: the discovery result is empty, with no fallback identity for
the group's first raw address. -/
theorem lookup_servers_unresolved_group_counterexample :
    lookup_servers (fun _ => Option.none) ["UUID: abc", "10.0.0.1"] = Except.ok [] ∧
      "10.0.0.1" ∉ ([] : List String) := by decide

/-- C2 (amended): a group whose addresses all fail resolution
contributes nothing to the discovered server set (it is dropped, with no
raw-address fallback), while a group with a resolving address always
contributes that first resolving hostname. -/
theorem resolveServers_unresolved_groups_dropped :
    (∀ (resolve : String → Option String) (gs : List (String × List String)),
        resolveServers resolve gs
          = resolveServers resolve
              (gs.filter (fun p => (firstResolved resolve p.2).isSome))) ∧
      (∀ (resolve : String → Option String) (gs : List (String × List String))
          (p : String × List String) (h : String),
        p ∈ gs → firstResolved resolve p.2 = Option.some h →
        h ∈ resolveServers resolve gs) := by
  constructor
  · intro resolve gs
    unfold resolveServers
    exact resolveServers_foldl_filter resolve gs []
  · intro resolve gs p h hp hf
    unfold resolveServers
    exact mem_resolveServers_of_group resolve gs [] p h hp hf

/-- C2 witness: the amended theorem applied to a listing with one
resolvable group and one group with no addresses. -/
theorem resolveServers_unresolved_groups_dropped_witness :
    (resolveServers (fun a => Option.some (a ++ ".example.com"))
        [("u1", ["10.0.0.1"]), ("u2", [])]
      = resolveServers (fun a => Option.some (a ++ ".example.com"))
          ([("u1", ["10.0.0.1"]), ("u2", [])].filter
            (fun p =>
              (firstResolved (fun a => Option.some (a ++ ".example.com")) p.2).isSome))) ∧
      ("u1", ["10.0.0.1"]) ∈ ([("u1", ["10.0.0.1"]), ("u2", [])] :
          List (String × List String)) ∧
      firstResolved (fun a => Option.some (a ++ ".example.com")) ["10.0.0.1"]
        = Option.some "10.0.0.1.example.com" ∧
      "10.0.0.1.example.com" ∈ resolveServers (fun a => Option.some (a ++ ".example.com"))
        [("u1", ["10.0.0.1"]), ("u2", [])] :=
  ⟨resolveServers_unresolved_groups_dropped.1 (fun a => Option.some (a ++ ".example.com"))
      [("u1", ["10.0.0.1"]), ("u2", [])],
    by decide, by decide,
    resolveServers_unresolved_groups_dropped.2 (fun a => Option.some (a ++ ".example.com"))
      [("u1", ["10.0.0.1"]), ("u2", [])] ("u1", ["10.0.0.1"]) "10.0.0.1.example.com"
      (by decide) (by decide)⟩

/-- Full-tuple lexicographic order projects to (host, part)
lexicographic order. -/
theorem rowLe_proj (a b : Row) (hab : rowLe a b) :
    a.1 < b.1 ∨ (a.1 = b.1 ∧ a.2.1 ≤ b.2.1) := by
  rcases (Prod.Lex.le_iff _ _).mp hab with h1 | ⟨h1, h2⟩
  · exact Or.inl h1
  · refine Or.inr ⟨h1, ?_⟩
    rcases (Prod.Lex.le_iff _ _).mp h2 with h3 | ⟨h3, _⟩
    · exact le_of_lt h3
    · exact le_of_eq h3

/-- C8: the data rows of the text renderer (everything after the header
row) are in ascending lexicographic order of the (host, partition-id)
pair. -/
theorem print_text_rows_sorted (results : List (String × List (String × PartInfo))) :
    ((textTable results).tail).Pairwise
      (fun a b => a.1 < b.1 ∨ (a.1 = b.1 ∧ a.2.1 ≤ b.2.1)) := by
  have hs : List.Sorted rowLe (sortRows (flatten results)) := by
    haveI ht : IsTotal Row rowLe := ⟨fun a b => le_total (rowKey a) (rowKey b)⟩
    haveI htr : IsTrans Row rowLe := ⟨fun a b c hab hbc => le_trans hab hbc⟩
    exact List.sorted_insertionSort rowLe (flatten results)
  have hmap : (textTable results).tail = (sortRows (flatten results)).map fmtRow := rfl
  rw [hmap, List.pairwise_map]
  exact List.Pairwise.imp (fun hab => rowLe_proj _ _ hab) hs

end

end Afsfree
